import Mathlib

/-
Verification of the Morpheus credential-gatekeeper core against its
natural-language specification.

The definitions below are a shallow embedding of the Python source:
  app/main.py        -- request orchestration and the one-time pickup store
  app/vault.py       -- vault CLI session management and credential lookup
  app/discord_bot.py -- reaction-based approval coordination and audit logging
External effects (subprocess results, chat events, wall-clock time) are passed
in explicitly; mutable state is passed and returned explicitly.  Python dicts
are modelled as association lists with first-occurrence lookup, in-place
overwrite on existing keys and append on fresh keys, matching dict semantics
for the unique-key dictionaries the source builds.
-/

set_option maxHeartbeats 1000000

namespace Morpheus

/-- Lookup in a Python-dict model: first entry whose key matches. -/
def alookup {α : Type} : List (String × α) → String → Option α
  | [], _ => none
  | (k', v) :: t, k => if k' = k then some v else alookup t k

/-- Python dict assignment `d[k] = v`: overwrite the first occurrence in
place, append when the key is fresh. -/
def aset {α : Type} : List (String × α) → String → α → List (String × α)
  | [], k, v => [(k, v)]
  | (k', v') :: t, k, v => if k' = k then (k, v) :: t else (k', v') :: aset t k v

/-- Python dict deletion `del d[k]` / `d.pop(k)`: drop the entries with key
`k` (unique in the dictionaries the source builds). -/
def derase {α : Type} : List (String × α) → String → List (String × α)
  | [], _ => []
  | (k', v') :: t, k => if k' = k then derase t k else (k', v') :: derase t k

/-- Python `d.get(k, default)`. -/
def dget {α : Type} (d : List (String × α)) (k : String) (dflt : α) : α :=
  match alookup d k with
  | some v => v
  | none => dflt

/-- Python `s.lower()` (ASCII case folding, as the source's inputs use). -/
def strLower (s : String) : String := ⟨s.data.map Char.toLower⟩

/-- Python's whitespace set for `str.strip()`. -/
def isSpaceP (c : Char) : Bool :=
  c = ' ' || c = '\t' || c = '\n' || c = '\r' || c = '\x0b' || c = '\x0c'

/-- Python `s.strip()`. -/
def strTrim (s : String) : String :=
  ⟨((s.data.dropWhile isSpaceP).reverse.dropWhile isSpaceP).reverse⟩

def splitCommaAux : List Char → List Char → List (List Char)
  | [], acc => [acc.reverse]
  | c :: rest, acc =>
    if c = ',' then acc.reverse :: splitCommaAux rest []
    else splitCommaAux rest (c :: acc)

/-- Python `s.split(",")`; on the empty string it yields `[""]`. -/
def splitComma (s : String) : List String := (splitCommaAux s.data []).map String.mk

/-- Python `x in l` for a list of strings. -/
def lmem (x : String) : List String → Bool
  | [] => false
  | y :: t => x = y || lmem x t

theorem alookup_aset_self {α : Type} (l : List (String × α)) (k : String) (v : α) :
    alookup (aset l k v) k = some v := by
  induction l with
  | nil => simp [aset, alookup]
  | cons hd t ih =>
    obtain ⟨k', v'⟩ := hd
    by_cases h : k' = k
    · simp [aset, alookup, h]
    · simp [aset, alookup, h, ih]

theorem alookup_aset_ne {α : Type} (l : List (String × α)) (k₁ k₂ : String) (v : α)
    (h : k₂ ≠ k₁) : alookup (aset l k₁ v) k₂ = alookup l k₂ := by
  induction l with
  | nil => simp [aset, alookup, Ne.symm h]
  | cons hd t ih =>
    obtain ⟨k', v'⟩ := hd
    by_cases hk : k' = k₁
    · subst hk
      simp [aset, alookup, Ne.symm h]
    · simp only [aset, if_neg hk]
      by_cases hk2 : k' = k₂
      · simp [alookup, hk2]
      · simp [alookup, hk2, ih]

theorem alookup_derase_self {α : Type} (l : List (String × α)) (k : String) :
    alookup (derase l k) k = none := by
  induction l with
  | nil => simp [derase, alookup]
  | cons hd t ih =>
    obtain ⟨k', v'⟩ := hd
    by_cases h : k' = k
    · simp [derase, h, ih]
    · simp [derase, alookup, h, ih]

/-! ## One-time pickup store (app/main.py)

`_credential_store` maps a pickup token to the stored payload together with
its creation time and service/scope metadata.  Time is modelled in seconds. -/

/-- Values appearing in a credential record: a string, Python `None`, or the
list of login URIs. -/
inductive CVal where
  | vStr (s : String)
  | vNone
  | vUris (us : List String)
deriving DecidableEq, Repr

/-- A credential record: the Python dict built by `get_credential`. -/
abbrev Cred := List (String × CVal)

/-- A `_credential_store` entry (app/main.py lines 268-273). -/
structure PickupEntry where
  credential : Cred
  created : Nat
  service : String
  scope : String
deriving DecidableEq, Repr

abbrev Store := List (String × PickupEntry)

/-- The pickup TTL: entries are considered stale when older than 300 s. -/
def TTLseconds : Nat := 300

/-- The stale-token sweep inside `pickup_credential` (app/main.py lines
327-330): drop every remaining entry with `now - created > 300`. -/
def sweep (now : Nat) : Store → Store
  | [] => []
  | e :: t => if now - e.2.created > TTLseconds then sweep now t else e :: sweep now t

/-- Storing a credential for one-time pickup (app/main.py lines 266-273):
a plain dict insert, with no sweep of stale entries. -/
def issue (st : Store) (token : String) (credential : Cred) (now : Nat)
    (service scope : String) : Store :=
  aset st token
    { credential := credential, created := now, service := service, scope := scope }

inductive RedeemResult where
  | ok (credential : Cred)
  | notFound
deriving DecidableEq, Repr

/-- The `/pickup` endpoint (app/main.py lines 311-333): 404 when the token is
absent; otherwise pop the entry, sweep the *remaining* entries for staleness,
and return the popped entry's credential.  The popped entry's own age is
never examined. -/
def pickup_credential (st : Store) (token : String) (now : Nat) :
    RedeemResult × Store :=
  match alookup st token with
  | none => (.notFound, st)
  | some entry => (.ok entry.credential, sweep now (derase st token))

theorem alookup_sweep_none (st : Store) (k : String) (now : Nat)
    (h : alookup st k = none) : alookup (sweep now st) k = none := by
  induction st with
  | nil => simp [sweep, alookup]
  | cons hd t ih =>
    obtain ⟨k', v'⟩ := hd
    by_cases hk : k' = k
    · simp [alookup, hk] at h
    · simp only [alookup, if_neg hk] at h
      by_cases hs : now - v'.created > TTLseconds
      · simpa [sweep, hs] using ih h
      · simp [sweep, hs, alookup, hk, ih h]

/-- C1: an entry older than the 5-minute TTL is claimed to be unredeemable and
every store access (issue or redeem) is claimed to sweep all stale entries.
The code does neither: redeeming a stale token that is still in the store
returns the credential (the popped entry's own age is never checked), and
`issue` performs no sweep, leaving the stale entry in place. -/
theorem expired_entry_still_redeemed_and_issue_does_not_sweep :
    (pickup_credential
        [("t", { credential := [("username", CVal.vStr "alice")], created := 0,
                 service := "github", scope := "read" })] "t" 301).1
      = RedeemResult.ok [("username", CVal.vStr "alice")] ∧
    alookup (issue
        [("t", { credential := [("username", CVal.vStr "alice")], created := 0,
                 service := "github", scope := "read" })]
        "t2" [("username", CVal.vStr "alice")] 301 "svc" "read") "t"
      = some { credential := [("username", CVal.vStr "alice")], created := 0,
               service := "github", scope := "read" } := by
  constructor <;> rfl

/-- C2: a pickup token is redeemable at most once.  Issuing a token and
redeeming it returns the stored credential payload and deletes the entry in
the same step; a second redeem of the same token returns NotFound. -/
theorem pickup_token_redeemable_at_most_once (st₀ : Store) (token : String)
    (credential : Cred) (tIssue tFirst tSecond : Nat) (service scope : String) :
    (pickup_credential (issue st₀ token credential tIssue service scope) token tFirst).1
      = RedeemResult.ok credential ∧
    alookup (pickup_credential (issue st₀ token credential tIssue service scope)
        token tFirst).2 token = none ∧
    (pickup_credential
        (pickup_credential (issue st₀ token credential tIssue service scope) token tFirst).2
        token tSecond).1 = RedeemResult.notFound := by
  have hlook :
      alookup (issue st₀ token credential tIssue service scope) token
        = some { credential := credential, created := tIssue,
                 service := service, scope := scope } :=
    alookup_aset_self _ _ _
  have hgone :
      alookup (pickup_credential (issue st₀ token credential tIssue service scope)
          token tFirst).2 token = none := by
    simp only [pickup_credential, hlook]
    exact alookup_sweep_none _ _ _ (alookup_derase_self _ _)
  have habsent : ∀ (st : Store) (now : Nat), alookup st token = none →
      (pickup_credential st token now).1 = RedeemResult.notFound := by
    intro st now h
    simp [pickup_credential, h]
  refine ⟨?_, hgone, habsent _ _ hgone⟩
  simp [pickup_credential, hlook]

/-! ## Credential lookup (app/vault.py, get_credential lines 186-302)

Vault items are the JSON objects the CLI's `bw list items --search` returns;
the search result list is an input here.  `get_credential` enforces the exact
case-insensitive name match, scope authorization and record extraction. -/

structure VaultField where
  name : String
  value : String
deriving DecidableEq, Repr

structure VaultLogin where
  username : Option String
  password : Option String
  uris : List String
deriving DecidableEq, Repr

structure VaultCard where
  cardholderName : Option String
  number : Option String
  expMonth : Option String
  expYear : Option String
  code : Option String
  brand : Option String
deriving DecidableEq, Repr

structure VaultItem where
  name : String
  itemType : Nat
  notes : Option String
  login : VaultLogin
  card : VaultCard
  fields : List VaultField
deriving DecidableEq, Repr

/-- Field names accepted as the allowed-scope control field (vault.py line
239): `scope` or `scopes`, case-insensitively. -/
def isScopeFieldName (n : String) : Bool :=
  strLower n = "scopes" || strLower n = "scope"

/-- The allowed-scope list (vault.py lines 236-244): comma-split the first
scope/scopes custom field's value (no such field means an empty list), keep
the elements that are nonempty after stripping, and normalize each to
stripped lower case. -/
def parseScopes (fields : List VaultField) : List String :=
  let raw : List String :=
    match fields.find? (fun f => isScopeFieldName f.name) with
    | some f => splitComma f.value
    | none => []
  (raw.filter (fun s => !(strTrim s = ""))).map (fun s => strLower (strTrim s))

/-- Python `str(...)` of a credential-record value, as used in the
auto-approve test. -/
def pyStr : CVal → String
  | .vStr s => s
  | .vNone => "None"
  | .vUris us => "[" ++ String.intercalate ", " us ++ "]"

/-- An optional string as a record value: Python `dict.get` yields the value
or `None`. -/
def optVal : Option String → CVal
  | some s => .vStr s
  | none => .vNone

/-- Sequential Python dict update with a list of key/value pairs. -/
def dinsertMany (d : Cred) (kvs : List (String × CVal)) : Cred :=
  kvs.foldl (fun acc kv => aset acc kv.1 kv.2) d

/-- The base record (vault.py lines 253-282): service, requested scope, item
name and notes, then card fields for item type 3 and login fields
otherwise. -/
def baseCredential (item : VaultItem) (service scope : String) : Cred :=
  let d0 : Cred := [("service", .vStr service), ("scope", .vStr scope),
                    ("name", .vStr item.name), ("notes", optVal item.notes)]
  if item.itemType = 3 then
    dinsertMany d0
      [("cardholderName", optVal item.card.cardholderName),
       ("number", optVal item.card.number),
       ("expMonth", optVal item.card.expMonth),
       ("expYear", optVal item.card.expYear),
       ("code", optVal item.card.code),
       ("brand", optVal item.card.brand)]
  else
    dinsertMany d0
      [("username", optVal item.login.username),
       ("password", optVal item.login.password),
       ("uris", .vUris item.login.uris)]

/-- Copy the auto_approve custom field's value into the record, in-band
(vault.py lines 284-288). -/
def withAutoApprove (d : Cred) (fields : List VaultField) : Cred :=
  match fields.find? (fun f => strLower f.name = "auto_approve") with
  | some f => aset d "auto_approve" (.vStr f.value)
  | none => d

/-- Internal control field names excluded from the custom-field copy
(vault.py line 291). -/
def isInternalName (n : String) : Bool :=
  strLower n = "scopes" || strLower n = "scope" || strLower n = "auto_approve"

/-- Copy every non-internal custom field into the record (vault.py lines
290-295). -/
def withCustomFields (d : Cred) (fields : List VaultField) : Cred :=
  fields.foldl
    (fun acc f => if isInternalName f.name then acc else aset acc f.name (.vStr f.value))
    d

def buildCredential (item : VaultItem) (service scope : String) : Cred :=
  withCustomFields (withAutoApprove (baseCredential item service scope) item.fields)
    item.fields

/-- The lookup get_credential (vault.py lines 186-302), given the items the CLI search
returned: pick the first exact case-insensitive name match (none matching, or
an empty result, is None), check the requested scope against the parsed
allowed-scope list (not a member is None), then build the record. -/
def get_credential (items : List VaultItem) (service scope : String) : Option Cred :=
  match items.find? (fun it => strLower it.name = strLower service) with
  | none => none
  | some item =>
    if !(lmem (strLower scope) (parseScopes item.fields)) then none
    else some (buildCredential item service scope)

/-- The orchestrator's strip of the auto_approve key before storing the
credential for pickup (app/main.py line 267). -/
def cleanCredential (d : Cred) : Cred :=
  d.filter (fun p => !(p.1 = "auto_approve"))

/-- Scope membership as the specification words it: some element of the
comma-separated allowed-scope value equals, after trimming and lower-casing,
the lower-cased requested scope.  Stated from the spec for comparison with
the source-derived `parseScopes`. -/
def specScopeMember (fields : List VaultField) (s : String) : Bool :=
  match fields.find? (fun f => isScopeFieldName f.name) with
  | none => false
  | some f => (splitComma f.value).any (fun e => strLower (strTrim e) = strLower s)

theorem lmem_parse_eq_any (l : List String) (t : String) (ht : ¬ t = "") :
    lmem t ((l.filter (fun s => !(strTrim s = ""))).map (fun s => strLower (strTrim s)))
      = l.any (fun e => strLower (strTrim e) = t) := by
  induction l with
  | nil => rfl
  | cons e l ih =>
    by_cases he : strTrim e = ""
    · have hb : (!(strTrim e = "" : Bool)) = false := by rw [he]; rfl
      have hne : (strLower (strTrim e) = t) = False := by
        have h0 : strLower (strTrim e) = "" := by rw [he]; rfl
        simp only [h0, eq_iff_iff, iff_false]
        exact fun hh => ht hh.symm
      simp [List.filter_cons, List.any_cons, hb, hne, ih]
    · have hb : (!(strTrim e = "" : Bool)) = true := by simp [he]
      simp only [List.filter_cons, hb, if_true, List.map_cons, List.any_cons, lmem]
      rw [ih]
      congr 1
      exact decide_eq_decide.mpr ⟨fun h => h.symm, fun h => h.symm⟩

/-- The sample credential of the spec's scope-matching property: allowed
scopes declared as `"Read, Write"`. -/
def githubItem : VaultItem :=
  { name := "github", itemType := 1, notes := none,
    login := { username := some "octo", password := some "hunter2", uris := [] },
    card := { cardholderName := none, number := none, expMonth := none,
              expYear := none, code := none, brand := none },
    fields := [{ name := "scope", value := "Read, Write" }] }

/-- C6: scope authorization is case-insensitive and whitespace-trimmed.  The
source's parsed allowed-scope list contains the lower-cased requested scope
exactly when some comma-separated element of the scope/scopes control field,
trimmed and lower-cased, equals it; in particular allowed scopes
"Read, Write" authorize requested scopes "write" and "READ". -/
theorem scope_matching_case_insensitive_trimmed (fields : List VaultField)
    (s : String) (hs : ¬ strLower s = "") :
    lmem (strLower s) (parseScopes fields) = specScopeMember fields s ∧
    (get_credential [githubItem] "github" "write").isSome = true ∧
    (get_credential [githubItem] "github" "READ").isSome = true := by
  refine ⟨?_, by decide, by decide⟩
  unfold parseScopes specScopeMember
  cases hf : fields.find? (fun f => isScopeFieldName f.name) with
  | none => rfl
  | some f => simpa using lmem_parse_eq_any (splitComma f.value) (strLower s) hs

theorem scope_matching_case_insensitive_trimmed_witness :
    ¬ strLower "write" = "" ∧
    (lmem (strLower "write") (parseScopes githubItem.fields)
        = specScopeMember githubItem.fields "write" ∧
      (get_credential [githubItem] "github" "write").isSome = true ∧
      (get_credential [githubItem] "github" "READ").isSome = true) :=
  ⟨by decide,
   scope_matching_case_insensitive_trimmed githubItem.fields "write" (by decide)⟩

/-! ## Request orchestration (app/main.py, request_credential lines 199-308)

The handler is embedded as a pure function of the collaborator results: the
lookup result (`credential`), and the messaging collaborator's approval
decision (`approvalResult`, the value `bot.request_approval` would return).
Python keyword-argument binding is modelled explicitly, because the source's
audit-log call passes a keyword (`auto_approved`) that `log_request`
(discord_bot.py lines 169-177) does not declare: binding it raises TypeError
before the coroutine runs, sending control to the handler's `except` block,
which performs the fallback log call and raises HTTP 500. -/

structure CredentialResponse where
  service : String
  scope : String
  request_id : String
  approved : Bool
  credential : Option Cred
  message : String
deriving DecidableEq, Repr

inductive HandlerOutcome where
  | response (r : CredentialResponse)
  | serverError (code : Nat)
deriving DecidableEq, Repr

/-- The caller-visible outcome together with the handler's observable side
effects: how many approval prompts were requested from the messaging
collaborator, the keyword-argument lists of the audit-log call attempts, how
many of those bound successfully (reached the logging collaborator), and
whether a pickup entry was stored. -/
structure HandlerResult where
  outcome : HandlerOutcome
  approvalPrompts : Nat
  logAttempts : List (List String)
  logDelivered : Nat
  issuedToken : Bool
deriving DecidableEq, Repr

/-- The keyword parameters `log_request` declares (discord_bot.py lines
169-177). -/
def logRequestParams : List String :=
  ["service", "scope", "reason", "approved", "request_id", "duration_ms"]

/-- The keyword arguments of the handler's audit-log call (main.py lines
253-261), including `auto_approved`. -/
def logCallKwargs : List String :=
  ["service", "scope", "reason", "approved", "request_id", "duration_ms",
   "auto_approved"]

/-- The keyword arguments of the fallback audit-log call in the except
handler (main.py lines 296-303). -/
def logCallKwargsFallback : List String :=
  ["service", "scope", "reason", "approved", "request_id", "duration_ms"]

/-- Python call binding: a call raises TypeError unless every keyword
argument names a declared parameter. -/
def bindsOk (params kwargs : List String) : Bool :=
  kwargs.all (fun k => lmem k params)

/-- The auto-approve test (main.py line 234):
`str(credential.get("auto_approve", "")).lower() == "true"`. -/
def autoApproveFlag (cred : Cred) : Bool :=
  strLower (pyStr (dget cred "auto_approve" (.vStr ""))) = "true"

/-- The response for a failed lookup (main.py lines 222-230): the one
"not found" shape returned both when no service matches and when the
requested scope is not allowed, with no audit-log call and no prompt. -/
def notFoundResult (service scope request_id : String) : HandlerResult :=
  { outcome := .response
      { service := service, scope := scope, request_id := request_id,
        approved := false, credential := none,
        message := "Service or scope not found, or scope not allowed" },
    approvalPrompts := 0, logAttempts := [], logDelivered := 0,
    issuedToken := false }

/-- The `/request` handler (main.py lines 199-308).  Lookup failure returns
the not-found denial without logging.  Otherwise the auto-approve flag is
read from the record; a non-auto request prompts the messaging collaborator
once.  The audit-log call is then attempted with `logCallKwargs`; if it
bound, the approved path would store a pickup entry and return the token and
the denied path would return "Access denied"; since `auto_approved` is not a
parameter of `log_request`, binding fails, the except block delivers the
fallback log call and the handler raises HTTP 500. -/
def request_credential (service scope reason request_id pickupToken : String)
    (credential : Option Cred) (approvalResult : Bool) : HandlerResult :=
  match credential with
  | none => notFoundResult service scope request_id
  | some cred =>
    let auto := autoApproveFlag cred
    let approved := if auto then true else approvalResult
    let prompts := if auto then 0 else 1
    if bindsOk logRequestParams logCallKwargs then
      if approved then
        { outcome := .response
            { service := service, scope := scope, request_id := request_id,
              approved := true, credential := none,
              message := "Access approved. Pickup token: " ++ pickupToken },
          approvalPrompts := prompts, logAttempts := [logCallKwargs],
          logDelivered := 1, issuedToken := true }
      else
        { outcome := .response
            { service := service, scope := scope, request_id := request_id,
              approved := false, credential := none,
              message := "Access denied" },
          approvalPrompts := prompts, logAttempts := [logCallKwargs],
          logDelivered := 1, issuedToken := false }
    else
      { outcome := .serverError 500,
        approvalPrompts := prompts,
        logAttempts := [logCallKwargs, logCallKwargsFallback],
        logDelivered := 1, issuedToken := false }

/-- C7: a request naming a service with no exact case-insensitive match and a
request naming an existing service whose allowed-scope set excludes the
requested scope are indistinguishable to the caller: both lookups yield
None and both handler results are the single `notFoundResult` shape (same
approved:false flag, same message, no credential), differing only in the
echoed request fields. -/
theorem not_found_and_scope_mismatch_indistinguishable
    (items₁ : List VaultItem) (s₁ sc₁ r₁ rid₁ tok₁ : String) (b₁ : Bool)
    (items₂ : List VaultItem) (item₂ : VaultItem)
    (s₂ sc₂ r₂ rid₂ tok₂ : String) (b₂ : Bool)
    (h₁ : items₁.all (fun it => !(strLower it.name = strLower s₁)) = true)
    (h₂ : items₂.find? (fun it => strLower it.name = strLower s₂) = some item₂)
    (h₃ : lmem (strLower sc₂) (parseScopes item₂.fields) = false) :
    get_credential items₁ s₁ sc₁ = none ∧
    get_credential items₂ s₂ sc₂ = none ∧
    request_credential s₁ sc₁ r₁ rid₁ tok₁ (get_credential items₁ s₁ sc₁) b₁
      = notFoundResult s₁ sc₁ rid₁ ∧
    request_credential s₂ sc₂ r₂ rid₂ tok₂ (get_credential items₂ s₂ sc₂) b₂
      = notFoundResult s₂ sc₂ rid₂ := by
  have hg₁ : get_credential items₁ s₁ sc₁ = none := by
    unfold get_credential
    have hfind : items₁.find? (fun it => strLower it.name = strLower s₁) = none := by
      rw [List.find?_eq_none]
      intro x hx
      have hx2 := List.all_eq_true.mp h₁ x hx
      simp only [Bool.not_eq_true'] at hx2
      simp [hx2]
    rw [hfind]
  have hg₂ : get_credential items₂ s₂ sc₂ = none := by
    unfold get_credential
    rw [h₂]
    simp [h₃]
  exact ⟨hg₁, hg₂, by rw [hg₁]; rfl, by rw [hg₂]; rfl⟩

theorem not_found_and_scope_mismatch_indistinguishable_witness :
    ([githubItem].all (fun it => !(strLower it.name = strLower "gitlab")) = true ∧
      [githubItem].find? (fun it => strLower it.name = strLower "GitHub")
        = some githubItem ∧
      lmem (strLower "admin") (parseScopes githubItem.fields) = false) ∧
    (get_credential [githubItem] "gitlab" "read" = none ∧
      get_credential [githubItem] "GitHub" "admin" = none ∧
      request_credential "gitlab" "read" "reason here" "r1" "t1"
          (get_credential [githubItem] "gitlab" "read") true
        = notFoundResult "gitlab" "read" "r1" ∧
      request_credential "GitHub" "admin" "reason here" "r2" "t2"
          (get_credential [githubItem] "GitHub" "admin") false
        = notFoundResult "GitHub" "admin" "r2") :=
  ⟨⟨by decide, by decide, by decide⟩,
   not_found_and_scope_mismatch_indistinguishable
     [githubItem] "gitlab" "read" "reason here" "r1" "t1" true
     [githubItem] githubItem "GitHub" "admin" "reason here" "r2" "t2" false
     (by decide) (by decide) (by decide)⟩

/-- C3: for a credential whose auto_approve control value is the literal
case-insensitive string "true", the handler indeed never invokes the
messaging collaborator (zero approval prompts, no approval wait), but
contrary to the claim it does not return an approved outcome with a fresh
pickup token: the audit-log call raises TypeError (`auto_approved` is not a
parameter of `log_request`), so the handler answers HTTP 500 and no pickup
entry is stored. -/
theorem auto_approve_yields_500_and_no_token :
    (request_credential "github" "read" "need repo access" "r1" "tok1"
        (some [("username", CVal.vStr "bob"), ("auto_approve", CVal.vStr "True")])
        false).approvalPrompts = 0 ∧
    (request_credential "github" "read" "need repo access" "r1" "tok1"
        (some [("username", CVal.vStr "bob"), ("auto_approve", CVal.vStr "True")])
        false).outcome = HandlerOutcome.serverError 500 ∧
    (request_credential "github" "read" "need repo access" "r1" "tok1"
        (some [("username", CVal.vStr "bob"), ("auto_approve", CVal.vStr "True")])
        false).issuedToken = false := by
  decide

/-- C4: the audit-log contract fails on the code.  A NotFound denial
triggers zero audit-log calls (the handler returns before any logging), and
for a found credential the attempted audit-log call does not bind
(`auto_approved` is not among `log_request`'s parameters), which changes the
caller-visible outcome to HTTP 500 instead of the approval result; the
except handler then delivers a fallback log call. -/
theorem audit_log_exactly_once_fails :
    (request_credential "github" "read" "need repo access" "r2" "tok2"
        none true).logAttempts = [] ∧
    (request_credential "github" "read" "need repo access" "r2" "tok2"
        none true).logDelivered = 0 ∧
    bindsOk logRequestParams logCallKwargs = false ∧
    (request_credential "github" "read" "need repo access" "r2" "tok2"
        (some [("username", CVal.vStr "bob")]) true).outcome
      = HandlerOutcome.serverError 500 ∧
    (request_credential "github" "read" "need repo access" "r2" "tok2"
        (some [("username", CVal.vStr "bob")]) true).logAttempts
      = [logCallKwargs, logCallKwargsFallback] := by
  decide

/-! ## C8: control fields in the returned record -/

/-- A vault item carrying both control fields, for the C8 counterexample. -/
def autoItem : VaultItem :=
  { name := "github", itemType := 1, notes := some "note",
    login := { username := some "octo", password := some "hunter2",
               uris := ["https://github.example"] },
    card := { cardholderName := none, number := none, expMonth := none,
              expYear := none, code := none, brand := none },
    fields := [{ name := "scope", value := "read" },
               { name := "auto_approve", value := "true" }] }

/-- C8 counterexample: a successful lookup of an item carrying an
auto_approve control field returns a record that does contain
`auto_approve` as a record field (conveyed in-band, later consumed by the
orchestrator), and the record also carries a `scope` key holding the
requested scope — contradicting the claim that none of
scope/scopes/auto_approve occur as record fields. -/
theorem lookup_record_contains_auto_approve :
    get_credential [autoItem] "github" "read"
      = some (buildCredential autoItem "github" "read") ∧
    alookup (buildCredential autoItem "github" "read") "auto_approve"
      = some (CVal.vStr "true") ∧
    alookup (buildCredential autoItem "github" "read") "scope"
      = some (CVal.vStr "read") := by
  decide

theorem alookup_dinsertMany_ne (kvs : List (String × CVal)) (d : Cred) (k : String)
    (h : kvs.all (fun p => !(p.1 = k)) = true) :
    alookup (dinsertMany d kvs) k = alookup d k := by
  induction kvs generalizing d with
  | nil => rfl
  | cons kv t ih =>
    simp only [List.all_cons, Bool.and_eq_true] at h
    have h1 : ¬ kv.1 = k := by
      have := h.1
      simp only [Bool.not_eq_true'] at this
      exact of_decide_eq_false this
    simp only [dinsertMany, List.foldl_cons]
    have hrest := ih (aset d kv.1 kv.2) h.2
    simp only [dinsertMany] at hrest
    rw [hrest]
    exact alookup_aset_ne _ _ _ _ (fun hh => h1 hh.symm)

theorem alookup_baseCredential_scope (item : VaultItem) (service scope : String) :
    alookup (baseCredential item service scope) "scope" = some (.vStr scope) := by
  unfold baseCredential
  by_cases h3 : item.itemType = 3
  · rw [if_pos h3, alookup_dinsertMany_ne _ _ _ (by rfl)]
    rfl
  · rw [if_neg h3, alookup_dinsertMany_ne _ _ _ (by rfl)]
    rfl

theorem alookup_baseCredential_scopes (item : VaultItem) (service scope : String) :
    alookup (baseCredential item service scope) "scopes" = none := by
  unfold baseCredential
  by_cases h3 : item.itemType = 3
  · rw [if_pos h3, alookup_dinsertMany_ne _ _ _ (by rfl)]
    rfl
  · rw [if_neg h3, alookup_dinsertMany_ne _ _ _ (by rfl)]
    rfl

theorem alookup_withAutoApprove_ne (d : Cred) (fields : List VaultField)
    (k : String) (h : ¬ k = "auto_approve") :
    alookup (withAutoApprove d fields) k = alookup d k := by
  unfold withAutoApprove
  cases fields.find? (fun f => strLower f.name = "auto_approve") with
  | none => rfl
  | some f => exact alookup_aset_ne _ _ _ _ h

theorem alookup_withCustomFields_internal (fields : List VaultField) (d : Cred)
    (k : String) (hk : isInternalName k = true) :
    alookup (withCustomFields d fields) k = alookup d k := by
  induction fields generalizing d with
  | nil => rfl
  | cons f t ih =>
    by_cases hf : isInternalName f.name
    · simp only [withCustomFields, List.foldl_cons, if_pos hf]
      exact ih d
    · simp only [withCustomFields, List.foldl_cons, if_neg hf]
      have hne : ¬ k = f.name := by
        intro hh
        subst hh
        exact hf hk
      have := ih (aset d f.name (.vStr f.value))
      simp only [withCustomFields] at this
      rw [this]
      exact alookup_aset_ne _ _ _ _ hne

theorem alookup_cleanCredential_auto (d : Cred) :
    alookup (cleanCredential d) "auto_approve" = none := by
  induction d with
  | nil => rfl
  | cons p t ih =>
    by_cases hp : p.1 = "auto_approve"
    · have hb : (!(p.1 = "auto_approve" : Bool)) = false := by rw [hp]; rfl
      simp only [cleanCredential, List.filter_cons, hb] at *
      simpa using ih
    · have hb : (!(p.1 = "auto_approve" : Bool)) = true := by simp [hp]
      simp only [cleanCredential, List.filter_cons, hb, if_true] at *
      simpa [alookup, hp] using ih

theorem alookup_cleanCredential_none (d : Cred) (k : String)
    (h : alookup d k = none) :
    alookup (cleanCredential d) k = none := by
  induction d with
  | nil => rfl
  | cons p t ih =>
    by_cases hp : p.1 = k
    · simp [alookup, hp] at h
    · simp only [alookup, if_neg hp] at h
      by_cases hq : p.1 = "auto_approve"
      · have hb : (!(p.1 = "auto_approve" : Bool)) = false := by rw [hq]; rfl
        simp only [cleanCredential, List.filter_cons, hb] at *
        simpa using ih h
      · have hb : (!(p.1 = "auto_approve" : Bool)) = true := by simp [hq]
        simp only [cleanCredential, List.filter_cons, hb, if_true] at *
        simpa [alookup, hp] using ih h

/-- C8 amended: for every successful lookup, the custom-field copy excludes
the control fields, so the record never contains a `scopes` key; the record
always carries the requested scope under the `scope` key; the auto_approve
value, when present, is conveyed in-band in the record (see the
counterexample) but the orchestrator strips it before storing the credential
for pickup, so the pickup payload contains neither `auto_approve` nor
`scopes`. -/
theorem lookup_record_control_fields_amended (items : List VaultItem)
    (service scope : String) (d : Cred)
    (h : get_credential items service scope = some d) :
    alookup d "scope" = some (.vStr scope) ∧
    alookup d "scopes" = none ∧
    alookup (cleanCredential d) "auto_approve" = none ∧
    alookup (cleanCredential d) "scopes" = none := by
  unfold get_credential at h
  rcases hfind : items.find? (fun it => strLower it.name = strLower service) with
    _ | item
  · rw [hfind] at h
    cases h
  · rw [hfind] at h
    by_cases hs : lmem (strLower scope) (parseScopes item.fields) = true
    · simp only [hs, Bool.not_true, if_neg (by decide : ¬ false = true),
        Option.some.injEq] at h
      subst h
      have hsc : alookup (buildCredential item service scope) "scope"
          = some (.vStr scope) := by
        unfold buildCredential
        rw [alookup_withCustomFields_internal _ _ _ (by decide),
            alookup_withAutoApprove_ne _ _ _ (by decide)]
        exact alookup_baseCredential_scope item service scope
      have hscs : alookup (buildCredential item service scope) "scopes" = none := by
        unfold buildCredential
        rw [alookup_withCustomFields_internal _ _ _ (by decide),
            alookup_withAutoApprove_ne _ _ _ (by decide)]
        exact alookup_baseCredential_scopes item service scope
      exact ⟨hsc, hscs, alookup_cleanCredential_auto _,
        alookup_cleanCredential_none _ _ hscs⟩
    · simp only [Bool.not_eq_true] at hs
      simp [hs] at h

theorem lookup_record_control_fields_amended_witness :
    get_credential [autoItem] "github" "read"
      = some (buildCredential autoItem "github" "read") ∧
    (alookup (buildCredential autoItem "github" "read") "scope"
        = some (.vStr "read") ∧
      alookup (buildCredential autoItem "github" "read") "scopes" = none ∧
      alookup (cleanCredential (buildCredential autoItem "github" "read"))
        "auto_approve" = none ∧
      alookup (cleanCredential (buildCredential autoItem "github" "read"))
        "scopes" = none) :=
  ⟨by decide,
   lookup_record_control_fields_amended [autoItem] "github" "read" _ (by decide)⟩

/-! ## Approval coordination (app/discord_bot.py)

`pending_requests` maps a message id to an asyncio Future.  The registry is
modelled as the list of message ids currently present (`pending`), and each
ever-created future's state is tracked in `futures` (the future object
outlives its registry entry: `request_approval` holds a reference).  A
future is resolved at most once; `set_result` on an already-done future
raises InvalidStateError, modelled as the error flag. -/

inductive FutState where
  | unresolved
  | resolved (b : Bool)
  | cancelled
deriving DecidableEq, Repr

structure BotState where
  pending : List String
  futures : List (String × FutState)
deriving DecidableEq, Repr

/-- Python `del dict[key]` on the registry's key list. -/
def pdel : List String → String → List String
  | [], _ => []
  | x :: t, id => if x = id then pdel t id else x :: pdel t id

/-- Registry membership `message_id in self.pending_requests`. -/
def pmem : List String → String → Bool
  | [], _ => false
  | x :: t, id => x = id || pmem t id

/-- The `future.set_result(b)` call followed by the registry delete
(discord_bot.py lines 67-75): succeeds only on an unresolved future; on an
already-done future, `set_result` raises InvalidStateError (second component
`true`) and the delete on line 75 is not reached. -/
def setResultAndDel (st : BotState) (id : String) (b : Bool) : BotState × Bool :=
  match alookup st.futures id with
  | some .unresolved =>
    ({ pending := pdel st.pending id,
       futures := aset st.futures id (.resolved b) }, false)
  | _ => (st, true)

/-- The reaction handler on_reaction_add (discord_bot.py lines 52-75).
Bot reactions and
reactions from anyone but the configured approver are ignored; a message id
with no pending entry is a silent no-op; the checkmark emoji resolves the
future to approval, the cross emoji to denial; any other emoji falls through
to the cleanup delete, removing the pending entry without resolving its
future.  The Bool result reports whether the handler raised. -/
def on_reaction_add (st : BotState) (isBot isApprover : Bool)
    (messageId emoji : String) : BotState × Bool :=
  if isBot || !isApprover then (st, false)
  else if !(pmem st.pending messageId) then (st, false)
  else if emoji = "✅" then setResultAndDel st messageId true
  else if emoji = "❌" then setResultAndDel st messageId false
  else ({ st with pending := pdel st.pending messageId }, false)

/-- Registration of a fresh pending approval (discord_bot.py lines 124-125):
`self.pending_requests[str(message.id)] = asyncio.Future()`. -/
def beginApproval (st : BotState) (id : String) : BotState :=
  { pending := if pmem st.pending id then st.pending else st.pending ++ [id],
    futures := aset st.futures id .unresolved }

/-- The timeout branch of request_approval (discord_bot.py lines 145-163):
`asyncio.wait_for` cancels the still-unresolved future and the handler
removes the pending entry (it only fires when the future is not yet done —
a done future makes `wait_for` return its result instead). -/
def timeoutStep (st : BotState) (id : String) : BotState :=
  { pending := pdel st.pending id,
    futures :=
      match alookup st.futures id with
      | some .unresolved => aset st.futures id .cancelled
      | _ => st.futures }

/-- The value `request_approval` returns as a function of the awaited
future: a resolution carries the approver's decision; no resolution before
the deadline is the timeout branch, returning False (denied). -/
def awaitApproval : Option Bool → Bool
  | some b => b
  | none => false

inductive BotEvent where
  | bstart (id : String)
  | breact (isBot isApprover : Bool) (id emoji : String)
  | btimeout (id : String)
deriving DecidableEq, Repr

def botStep (st : BotState) : BotEvent → BotState
  | .bstart id => beginApproval st id
  | .breact isBot isApprover id emoji => (on_reaction_add st isBot isApprover id emoji).1
  | .btimeout id => timeoutStep st id

def botRun (st : BotState) : List BotEvent → BotState
  | [] => st
  | e :: es => botRun (botStep st e) es

/-- Registrations use fresh correlation ids (message ids are unique per
sent message). -/
def freshOkB (st : BotState) : BotEvent → Bool
  | .bstart id => (alookup st.futures id).isNone
  | _ => true

def wfFrom (st : BotState) : List BotEvent → Bool
  | [] => true
  | e :: es => freshOkB st e && wfFrom (botStep st e) es

theorem pmem_pdel_self (l : List String) (id : String) :
    pmem (pdel l id) id = false := by
  induction l with
  | nil => rfl
  | cons x t ih =>
    by_cases hx : x = id
    · simpa [pdel, hx] using ih
    · simpa [pdel, pmem, hx] using ih

theorem pmem_pdel_false (l : List String) (id id' : String)
    (h : pmem l id = false) : pmem (pdel l id') id = false := by
  induction l with
  | nil => rfl
  | cons x t ih =>
    simp only [pmem, Bool.or_eq_false_iff] at h
    have ht := ih h.2
    by_cases hx : x = id'
    · simpa [pdel, hx] using ht
    · simp [pdel, pmem, hx, h.1, ht]

theorem setResultAndDel_preserves_terminal (st : BotState) (id' id : String)
    (b : Bool) (f : FutState) (hterm : ¬ f = .unresolved)
    (hres : alookup st.futures id = some f) :
    alookup (setResultAndDel st id' b).1.futures id = some f := by
  unfold setResultAndDel
  cases hl : alookup st.futures id' with
  | none => exact hres
  | some f' =>
    cases f' with
    | unresolved =>
      by_cases hid : id' = id
      · subst hid
        rw [hl] at hres
        exact absurd (Option.some.inj hres).symm hterm
      · simp only
        rw [alookup_aset_ne _ _ _ _ (fun hh => hid hh.symm)]
        exact hres
    | resolved b' => exact hres
    | cancelled => exact hres

/-- A terminal future state is never changed by a well-formed step. -/
theorem botStep_preserves_terminal (st : BotState) (e : BotEvent) (id : String)
    (f : FutState) (hterm : ¬ f = .unresolved)
    (hres : alookup st.futures id = some f) (hwf : freshOkB st e = true) :
    alookup (botStep st e).futures id = some f := by
  cases e with
  | bstart id' =>
    simp only [freshOkB, Option.isNone_iff_eq_none] at hwf
    by_cases hid : id' = id
    · subst hid
      rw [hwf] at hres
      cases hres
    · simp only [botStep, beginApproval]
      rw [alookup_aset_ne _ _ _ _ (fun hh => hid hh.symm)]
      exact hres
  | breact isBot isApprover id' emoji =>
    simp only [botStep, on_reaction_add]
    by_cases h1 : (isBot || !isApprover) = true
    · simp [h1, hres]
    · simp only [h1, if_false]
      by_cases h2 : pmem st.pending id' = true
      · simp only [h2, Bool.not_true, Bool.false_eq_true, if_false]
        by_cases h3 : emoji = "✅"
        · simp only [h3, if_pos rfl]
          exact setResultAndDel_preserves_terminal st id' id true f hterm hres
        · simp only [h3, if_false]
          by_cases h4 : emoji = "❌"
          · simp only [h4, if_pos rfl]
            exact setResultAndDel_preserves_terminal st id' id false f hterm hres
          · simp only [h4, if_false]
            exact hres
      · simp only [Bool.not_eq_true] at h2
        simp [h2, hres]
  | btimeout id' =>
    simp only [botStep, timeoutStep]
    by_cases hid : id' = id
    · subst hid
      rw [hres]
      cases f with
      | unresolved => exact absurd rfl hterm
      | resolved b => exact hres
      | cancelled => exact hres
    · cases hl : alookup st.futures id' with
      | none => exact hres
      | some f' =>
        cases f' with
        | unresolved =>
          simp only
          rw [alookup_aset_ne _ _ _ _ (fun hh => hid hh.symm)]
          exact hres
        | resolved b => exact hres
        | cancelled => exact hres

theorem botRun_preserves_terminal (tr : List BotEvent) (st : BotState)
    (id : String) (f : FutState) (hwf : wfFrom st tr = true)
    (hterm : ¬ f = .unresolved) (hres : alookup st.futures id = some f) :
    alookup (botRun st tr).futures id = some f := by
  induction tr generalizing st with
  | nil => exact hres
  | cons e es ih =>
    simp only [wfFrom, Bool.and_eq_true] at hwf
    exact ih (botStep st e) hwf.2
      (botStep_preserves_terminal st e id f hterm hres hwf.1)

/-- C5: for every correlation id at most one resolution is ever observed.
Once an id's future holds a terminal state (resolved to a decision, or
cancelled by the timeout), no well-formed sequence of further events ever
changes it; the timeout removes the pending entry; and once the pending
entry is gone, any later reaction signal for that id is a silent no-op:
no error is raised and the state is returned unchanged. -/
theorem single_resolution_per_correlation_id (st : BotState)
    (tr : List BotEvent) (id : String) (f : FutState)
    (hwf : wfFrom st tr = true) (hterm : ¬ f = .unresolved)
    (hres : alookup st.futures id = some f) :
    alookup (botRun st tr).futures id = some f ∧
    (∀ s : BotState, pmem (timeoutStep s id).pending id = false) ∧
    (∀ (s : BotState) (isBot isApprover : Bool) (emoji : String),
      pmem s.pending id = false →
      on_reaction_add s isBot isApprover id emoji = (s, false)) := by
  refine ⟨botRun_preserves_terminal tr st id f hwf hterm hres, ?_, ?_⟩
  · intro s
    exact pmem_pdel_self s.pending id
  · intro s isBot isApprover emoji hmem
    unfold on_reaction_add
    by_cases h1 : (isBot || !isApprover) = true
    · simp [h1]
    · simp [h1, hmem]

theorem single_resolution_per_correlation_id_witness :
    (wfFrom ⟨[], [("m", FutState.resolved true)]⟩
        [BotEvent.breact false true "m" "❌", BotEvent.btimeout "m"] = true ∧
      ¬ FutState.resolved true = FutState.unresolved ∧
      alookup [("m", FutState.resolved true)] "m"
        = some (FutState.resolved true)) ∧
    (alookup (botRun ⟨[], [("m", FutState.resolved true)]⟩
          [BotEvent.breact false true "m" "❌", BotEvent.btimeout "m"]).futures "m"
        = some (FutState.resolved true) ∧
      (∀ s : BotState, pmem (timeoutStep s "m").pending "m" = false) ∧
      (∀ (s : BotState) (isBot isApprover : Bool) (emoji : String),
        pmem s.pending "m" = false →
        on_reaction_add s isBot isApprover "m" emoji = (s, false))) :=
  ⟨⟨by decide, by decide, by decide⟩,
   single_resolution_per_correlation_id ⟨[], [("m", FutState.resolved true)]⟩
     [BotEvent.breact false true "m" "❌", BotEvent.btimeout "m"] "m"
     (FutState.resolved true) (by decide) (by decide) (by decide)⟩

def isReaction : BotEvent → Bool
  | .breact _ _ _ _ => true
  | _ => false

theorem setResultAndDel_preserves_out (s : BotState) (id' id : String) (b : Bool)
    (hmem : pmem s.pending id = false)
    (hfut : alookup s.futures id = some .unresolved)
    (hid : ¬ id' = id) :
    pmem (setResultAndDel s id' b).1.pending id = false ∧
    alookup (setResultAndDel s id' b).1.futures id = some .unresolved := by
  unfold setResultAndDel
  cases hl : alookup s.futures id' with
  | none => exact ⟨hmem, hfut⟩
  | some f' =>
    cases f' with
    | unresolved =>
      refine ⟨pmem_pdel_false _ _ _ hmem, ?_⟩
      simp only
      rw [alookup_aset_ne _ _ _ _ (fun hh => hid hh.symm)]
      exact hfut
    | resolved b' => exact ⟨hmem, hfut⟩
    | cancelled => exact ⟨hmem, hfut⟩

theorem react_preserves_unresolved_out (s : BotState) (id : String)
    (isBot isApprover : Bool) (id' emoji : String)
    (hmem : pmem s.pending id = false)
    (hfut : alookup s.futures id = some .unresolved) :
    pmem (on_reaction_add s isBot isApprover id' emoji).1.pending id = false ∧
    alookup (on_reaction_add s isBot isApprover id' emoji).1.futures id
      = some .unresolved := by
  unfold on_reaction_add
  by_cases h1 : (isBot || !isApprover) = true
  · simp [h1, hmem, hfut]
  · simp only [h1, if_false]
    by_cases h2 : pmem s.pending id' = true
    · have hid : ¬ id' = id := by
        intro hh
        subst hh
        rw [h2] at hmem
        cases hmem
      simp only [h2, Bool.not_true, Bool.false_eq_true, if_false]
      by_cases h3 : emoji = "✅"
      · simp only [h3, if_pos rfl]
        exact setResultAndDel_preserves_out s id' id true hmem hfut hid
      · simp only [h3, if_false]
        by_cases h4 : emoji = "❌"
        · simp only [h4, if_pos rfl]
          exact setResultAndDel_preserves_out s id' id false hmem hfut hid
        · simp only [h4, if_false]
          exact ⟨pmem_pdel_false _ _ _ hmem, hfut⟩
    · simp only [Bool.not_eq_true] at h2
      simp [h2, hmem, hfut]

theorem botRun_reacts_keep_unresolved (evs : List BotEvent) (s : BotState)
    (id : String) (hevs : evs.all isReaction = true)
    (hmem : pmem s.pending id = false)
    (hfut : alookup s.futures id = some .unresolved) :
    alookup (botRun s evs).futures id = some .unresolved := by
  induction evs generalizing s with
  | nil => exact hfut
  | cons e es ih =>
    simp only [List.all_cons, Bool.and_eq_true] at hevs
    cases e with
    | bstart id0 => simp [isReaction] at hevs
    | btimeout id0 => simp [isReaction] at hevs
    | breact ib ia id0 em =>
      have hp := react_preserves_unresolved_out s id ib ia id0 em hmem hfut
      exact ih _ hevs.2 hp.1 hp.2

/-- C10: when the authorized approver reacts to a pending approval message
with any emoji other than the checkmark or the cross, the handler raises no
error, deletes the pending entry without resolving its future, and from then
on every reaction event (any user, any emoji, any message) leaves the id's
future unresolved — so the request can only terminate through the timeout
branch, whose return value is denial. -/
theorem other_emoji_drops_pending_without_resolving (st : BotState)
    (id emoji : String) (evs : List BotEvent)
    (hmem : pmem st.pending id = true)
    (hfut : alookup st.futures id = some .unresolved)
    (h1 : ¬ emoji = "✅") (h2 : ¬ emoji = "❌")
    (hevs : evs.all isReaction = true) :
    (on_reaction_add st false true id emoji).2 = false ∧
    (on_reaction_add st false true id emoji).1
      = { st with pending := pdel st.pending id } ∧
    pmem (on_reaction_add st false true id emoji).1.pending id = false ∧
    alookup (botRun (on_reaction_add st false true id emoji).1 evs).futures id
      = some .unresolved ∧
    awaitApproval none = false := by
  have hstep : on_reaction_add st false true id emoji
      = ({ st with pending := pdel st.pending id }, false) := by
    unfold on_reaction_add
    simp [hmem, h1, h2]
  refine ⟨by rw [hstep], by rw [hstep], ?_, ?_, rfl⟩
  · rw [hstep]
    exact pmem_pdel_self _ _
  · rw [hstep]
    exact botRun_reacts_keep_unresolved evs _ id hevs (pmem_pdel_self _ _) hfut

theorem other_emoji_drops_pending_without_resolving_witness :
    (pmem ["m"] "m" = true ∧
      alookup [("m", FutState.unresolved)] "m" = some FutState.unresolved ∧
      ¬ ("👍" : String) = "✅" ∧ ¬ ("👍" : String) = "❌" ∧
      ([BotEvent.breact false true "m" "✅",
        BotEvent.breact false true "m" "❌"].all isReaction = true)) ∧
    ((on_reaction_add ⟨["m"], [("m", FutState.unresolved)]⟩ false true "m" "👍").2
        = false ∧
      (on_reaction_add ⟨["m"], [("m", FutState.unresolved)]⟩ false true "m" "👍").1
        = { (⟨["m"], [("m", FutState.unresolved)]⟩ : BotState) with
            pending := pdel ["m"] "m" } ∧
      pmem (on_reaction_add ⟨["m"], [("m", FutState.unresolved)]⟩
          false true "m" "👍").1.pending "m" = false ∧
      alookup (botRun (on_reaction_add ⟨["m"], [("m", FutState.unresolved)]⟩
            false true "m" "👍").1
          [BotEvent.breact false true "m" "✅",
           BotEvent.breact false true "m" "❌"]).futures "m"
        = some FutState.unresolved ∧
      awaitApproval none = false) :=
  ⟨⟨by decide, by decide, by decide, by decide, by decide⟩,
   other_emoji_drops_pending_without_resolving
     ⟨["m"], [("m", FutState.unresolved)]⟩ "m" "👍"
     [BotEvent.breact false true "m" "✅", BotEvent.breact false true "m" "❌"]
     (by decide) (by decide) (by decide) (by decide) (by decide)⟩

/-! ## Vault session management (app/vault.py, VaultManager)

The manager's mutable state is `session_key` and `_logged_in`.  The external
CLI's behaviour during one `unlock()` call is an explicit environment: the
outcome of `bw config server` and `bw status`, the key produced by a login
or unlock subprocess (None models a non-zero exit, a timeout, or any other
failure of that step), and whether `bw sync --session <key>` (the liveness
probe) succeeds for a given key. -/

structure VaultState where
  session_key : Option String
  logged_in : Bool
deriving DecidableEq, Repr

structure VaultEnv where
  configOk : Bool
  statusResult : Option String
  loginKey : Option String
  unlockKey : Option String
  probeOk : String → Bool

/-- Python truthiness of `self.session_key`: present and nonempty. -/
def truthyKey : Option String → Bool
  | some s => !(s = "")
  | none => false

/-- The `_do_unlock` operation (vault.py lines 127-155): on success store
the fresh session key and return True; any failure returns False with the
key unchanged. -/
def do_unlock (st : VaultState) (env : VaultEnv) : VaultState × Bool :=
  match env.unlockKey with
  | some k => ({ st with session_key := some k }, true)
  | none => (st, false)

/-- The login operation (vault.py lines 60-125): configure the server, read `bw status`,
then branch on the reported state: unauthenticated runs the login
subprocess, locked just records the logged-in flag, unlocked records the
flag and unlocks when no truthy key is cached; unknown states and command
failures return False. -/
def login (st : VaultState) (env : VaultEnv) : VaultState × Bool :=
  if !env.configOk then (st, false)
  else
    match env.statusResult with
    | none => (st, false)
    | some status =>
      if status = "unauthenticated" then
        match env.loginKey with
        | some k => ({ session_key := some k, logged_in := true }, true)
        | none => (st, false)
      else if status = "locked" then ({ st with logged_in := true }, true)
      else if status = "unlocked" then
        let st1 : VaultState := { st with logged_in := true }
        if !(truthyKey st1.session_key) then do_unlock st1 env
        else (st1, true)
      else (st, false)

/-- The unlock operation (vault.py lines 157-184): log in first when needed; when a truthy
session key is cached, run the liveness probe with it — probe success reuses
the key, probe failure discards it and falls through to a fresh
`_do_unlock`; with no truthy key, unlock directly. -/
def unlock (st : VaultState) (env : VaultEnv) : VaultState × Bool :=
  if !st.logged_in then
    match login st env with
    | (st1, false) => (st1, false)
    | (st1, true) => unlockAfterLogin st1 env
  else unlockAfterLogin st env
where
  unlockAfterLogin (st : VaultState) (env : VaultEnv) : VaultState × Bool :=
    match st.session_key with
    | some k =>
      if k = "" then do_unlock st env
      else if env.probeOk k then (st, true)
      else do_unlock { st with session_key := none } env
    | none => do_unlock st env

/-- C9: while the liveness probe succeeds, `unlock` reuses the cached session
key unchanged and reports success; when the probe fails, it discards the
cached key, obtains a fresh key from `_do_unlock`, and still reports success
to the caller. -/
theorem session_reuse_and_reunlock_on_stale (st : VaultState) (env : VaultEnv)
    (k : String) (hlog : st.logged_in = true) (hkey : st.session_key = some k)
    (hne : ¬ k = "") :
    (env.probeOk k = true → unlock st env = (st, true)) ∧
    (env.probeOk k = false → ∀ k', env.unlockKey = some k' →
      unlock st env = ({ st with session_key := some k' }, true)) := by
  have hcommon : unlock st env = unlock.unlockAfterLogin st env := by
    unfold unlock
    rw [hlog]
    rfl
  constructor
  · intro hprobe
    rw [hcommon]
    unfold unlock.unlockAfterLogin
    rw [hkey]
    simp [hne, hprobe]
  · intro hprobe k' hk'
    rw [hcommon]
    unfold unlock.unlockAfterLogin
    rw [hkey]
    simp only
    rw [if_neg hne]
    simp [hprobe, do_unlock, hk']

theorem session_reuse_and_reunlock_on_stale_witness :
    (({ session_key := some "K1", logged_in := true } : VaultState).logged_in
        = true ∧
      ({ session_key := some "K1", logged_in := true } : VaultState).session_key
        = some "K1" ∧
      ¬ ("K1" : String) = "") ∧
    (({ configOk := true, statusResult := some "unlocked", loginKey := none,
        unlockKey := some "K2", probeOk := fun _ => false } : VaultEnv).probeOk "K1"
          = false →
      ∀ k', ({ configOk := true, statusResult := some "unlocked",
               loginKey := none, unlockKey := some "K2",
               probeOk := fun _ => false } : VaultEnv).unlockKey = some k' →
        unlock { session_key := some "K1", logged_in := true }
            { configOk := true, statusResult := some "unlocked", loginKey := none,
              unlockKey := some "K2", probeOk := fun _ => false }
          = ({ session_key := some k', logged_in := true }, true)) :=
  ⟨⟨rfl, rfl, by decide⟩,
   (session_reuse_and_reunlock_on_stale
     { session_key := some "K1", logged_in := true }
     { configOk := true, statusResult := some "unlocked", loginKey := none,
       unlockKey := some "K2", probeOk := fun _ => false }
     "K1" rfl rfl (by decide)).2⟩

end Morpheus
